import Mathlib

/-!
Shallow embedding of the hotel-tracker monitor (src/enhanced_monitor.py and
the calendar navigator of src/hotel_tracker.py), together with theorems
settling the specification claims about it.

Modelling conventions:
* Python strings are Lean `String`s; Python `int` is Lean `Int`.
* String scanning primitives (`in`, `startswith`, `' '.join`, `replace`)
  are modelled over the character list `String.data`, which matches the
  Python semantics for the single-character / literal patterns used here.
* HTML fragments are modelled at the level of what BeautifulSoup extracts
  from them: the class list of the date element and the class lists of the
  icon elements of one calendar day cell.
* Fallible stages (network fetch, payload analysis) are modelled as
  `Except String` outcomes; a Python `try/except` boundary is modelled by
  converting an exceptional outcome into the caught value exactly where the
  source places the `try`.
-/

/-- One room/date availability observation (dataclass RoomAvailability). -/
structure RoomAvailability where
  room_name : String
  date : String
  available_count : Int
  price : String
  status : String
deriving DecidableEq

/-- The persisted availability tuple shape used by detect_changes and the
snapshot: a dict with keys room, date, count, price. -/
structure AvailTuple where
  room : String
  date : String
  count : Int
  price : String
deriving DecidableEq

/-- Result dictionary of detect_changes. -/
structure DiffResult where
  new_available : List AvailTuple
  lost_available : List AvailTuple
  current_available : List AvailTuple
  has_changes : Bool
deriving DecidableEq

/-- The per-hotel configuration fields used by the analysis functions. -/
structure HotelConfig where
  name : String
  target_dates : List String
deriving DecidableEq

/-- Python list-prefix test over characters, used to build the string
scanning primitives below. -/
def listIsPre : List Char → List Char → Bool
  | [], _ => true
  | _ :: _, [] => false
  | a :: as, b :: bs => a == b && listIsPre as bs

/-- Contiguous-sublist test over characters. -/
def listInfixOf (pat : List Char) : List Char → Bool
  | [] => listIsPre pat []
  | b :: bs => listIsPre pat (b :: bs) || listInfixOf pat bs

/-- Python substring containment `pat in s`. -/
def strContainsSub (s pat : String) : Bool :=
  listInfixOf pat.data s.data

/-- Python `s.startswith(pre)`. -/
def strStarts (s pre : String) : Bool :=
  listIsPre pre.data s.data

/-- Python `' '.join(classes)`. -/
def joinSpace : List String → String
  | [] => ""
  | [s] => s
  | s :: rest => s ++ " " ++ joinSpace rest

/-- Python `s.replace('/', '-')` (single-character pattern, so it is the
character map sending every slash to a dash). -/
def normDate (s : String) : String :=
  String.mk (s.data.map (fun c => if c == '/' then '-' else c))

/-- One price entry of a plan in the JSONP payload. -/
structure PriceInfo where
  price_date : String
  price_2 : String
deriving DecidableEq

/-- One plan of a room in the JSONP payload. -/
structure Plan where
  prices : List PriceInfo
deriving DecidableEq

/-- One availability entry of a room in the JSONP payload. `aki_num` is the
payload's stock count after Python `int(...)` coercion (numeric coercion is
assumed to succeed here; the failure mode of the analysis stage is modelled
generically in `BackendRun`). -/
structure Aki where
  aki_date : String
  aki_num : Int
deriving DecidableEq

/-- One room object of the JSONP payload. `room_name_eng` is `none` when
the key room_name_eng is absent (the source then falls back to
Room followed by the room id). -/
structure Room where
  room_id : String
  room_name_eng : Option String
  aki : List Aki
  plans : List Plan
deriving DecidableEq

/-- The decoded JSONP payload; a payload that is falsy or lacks the rooms
key behaves as `rooms = []`. -/
structure JsonpData where
  rooms : List Room
deriving DecidableEq

/-- Display name of a room: hotel name, dash, English room name (or a
fallback built from the room id). -/
def roomDisplayName (cfg : HotelConfig) (room : Room) : String :=
  match room.room_name_eng with
  | some n => cfg.name ++ " - " ++ n
  | none => cfg.name ++ " - Room " ++ room.room_id

/-- Price lookup of analyze_jsonp_data: scan every plan's price entries in
order; every entry whose normalized price_date equals the record's date and
whose price_2 differs from the string 0 overwrites the accumulator with a
yen-prefixed price, so the last matching entry wins; the sentinel is
No price. -/
def priceFor (room : Room) (date : String) : String :=
  room.plans.foldl
    (fun acc plan =>
      plan.prices.foldl
        (fun acc2 pi =>
          if normDate pi.price_date == date then
            if pi.price_2 != "0" then "¥" ++ pi.price_2 else acc2
          else acc2)
        acc)
    "No price"

/-- Whether some plan of the room has a price entry for the given date with
a non-zero price (specification-level view of the price scan). -/
def priceFound (room : Room) (date : String) : Bool :=
  room.plans.any (fun plan =>
    plan.prices.any (fun pi =>
      normDate pi.price_date == date && pi.price_2 != "0"))

/-- Status derivation of analyze_jsonp_data. -/
def jsonpStatus (room : Room) (date : String) (available : Int) : String :=
  if available > 0 then "available"
  else if priceFor room date != "No price" then "sold_out"
  else "not_bookable"

/-- The RoomAvailability record built for one in-target aki entry. -/
def mkJsonpRecord (cfg : HotelConfig) (room : Room) (a : Aki) : RoomAvailability :=
  { room_name := roomDisplayName cfg room
    date := normDate a.aki_date
    available_count := a.aki_num
    price := priceFor room (normDate a.aki_date)
    status := jsonpStatus room (normDate a.aki_date) a.aki_num }

/-- analyze_jsonp_data: for every room and every aki entry whose normalized
date lies in the configured target dates, emit one record, in source
order. -/
def analyze_jsonp_data (data : JsonpData) (cfg : HotelConfig) : List RoomAvailability :=
  data.rooms.flatMap (fun room =>
    (room.aki.filter (fun a => cfg.target_dates.contains (normDate a.aki_date))).map
      (mkJsonpRecord cfg room))

/-- One parsed calendar day cell of the HTML-calendar payload: the class
list of the element located by the date pattern (none when no such element
exists in the fragment) and the class lists of the icon elements, in
document order. -/
structure DayCell where
  dateElem : Option (List String)
  icons : List (List String)
deriving DecidableEq

/-- One month object of the HTML-calendar payload. -/
structure MonthData where
  calendarCaption : String
  data : List (List DayCell)
deriving DecidableEq

/-- Icon classification loop of analyze_html_calendar_data: walk the icons
in document order; the first icon whose joined class string contains one of
the four markers decides status and count (circle and triangle are checked
before the X mark, which is checked before the minus, on each single icon);
if no icon matches, the day stays not_bookable with count 0. -/
def classifyIcons : List (List String) → String × Int
  | [] => ("not_bookable", 0)
  | icon :: rest =>
    let cls := joinSpace icon
    if strContainsSub cls "fa-regular fa-circle" then ("available", 1)
    else if strContainsSub cls "fa-solid fa-triangle-exclamation" then ("available", 1)
    else if strContainsSub cls "fa-solid fa-xmark" then ("sold_out", 0)
    else if strContainsSub cls "fa-solid fa-minus text-danger" then ("not_released", 0)
    else classifyIcons rest

/-- Per-cell analysis: find the date class token (first class starting with
2026-02-), classify the icons, and keep the record unless its status is
not_released. -/
def analyzeCell (name : String) (cell : DayCell) : Option RoomAvailability :=
  match cell.dateElem with
  | none => none
  | some classes =>
    match classes.find? (fun c => strStarts c "2026-02-") with
    | none => none
    | some date_str =>
      let sc := classifyIcons cell.icons
      if sc.1 != "not_released" then
        some { room_name := name ++ " - Room", date := date_str,
               available_count := sc.2, price := "Check website", status := sc.1 }
      else none

/-- analyze_html_calendar_data: locate the first month whose caption
contains the February 2026 marker, then emit one record per day cell that
carries a date token and is not classified not_released. -/
def analyze_html_calendar_data (api_data : List MonthData) (cfg : HotelConfig) :
    List RoomAvailability :=
  match api_data.find? (fun m => strContainsSub m.calendarCaption "2026年2月") with
  | none => []
  | some m => m.data.flatMap (fun week => week.filterMap (analyzeCell cfg.name))

/-- Whether an icon's joined class string contains any of the four status
markers the classification loop reacts to. -/
def iconMatchesSomeMarker (icon : List String) : Bool :=
  strContainsSub (joinSpace icon) "fa-regular fa-circle" ||
  strContainsSub (joinSpace icon) "fa-solid fa-triangle-exclamation" ||
  strContainsSub (joinSpace icon) "fa-solid fa-xmark" ||
  strContainsSub (joinSpace icon) "fa-solid fa-minus text-danger"

/-- The projection of a record to the persisted tuple shape. -/
def toTuple (r : RoomAvailability) : AvailTuple :=
  { room := r.room_name, date := r.date, count := r.available_count, price := r.price }

/-- Key comparison used by detect_changes: only room and date take part,
count and price are ignored. -/
def sameKey (a b : AvailTuple) : Bool :=
  a.room == b.room && a.date == b.date

/-- The current available set built by detect_changes: status-available
records, in order, projected to tuples. -/
def currentAvailable (current : List RoomAvailability) : List AvailTuple :=
  (current.filter (fun r => r.status == "available")).map toTuple

/-- detect_changes: membership of a tuple in new_available or
lost_available is decided purely by presence of its (room, date) key in the
other list. -/
def detect_changes (current : List RoomAvailability) (previous : List AvailTuple) :
    DiffResult :=
  let current_available := currentAvailable current
  let new_available :=
    current_available.filter (fun room => !(previous.any (fun p => sameKey p room)))
  let lost_available :=
    previous.filter (fun room => !(current_available.any (fun c => sameKey c room)))
  { new_available := new_available
    lost_available := lost_available
    current_available := current_available
    has_changes := !new_available.isEmpty || !lost_available.isEmpty }

/-- call_api: the try/except around one backend's fetch-and-decode stage;
an exceptional outcome is caught and becomes None. -/
def call_api {α : Type} (fetched : Except String α) : Option α :=
  match fetched with
  | Except.ok d => some d
  | Except.error _ => none

/-- One configured backend inside a check cycle: the outcome of its network
fetch and response decoding (everything the source wraps in call_api's try)
and its analysis stage, whose own exceptional outcome is not wrapped by any
handler inside run_single_check. -/
structure BackendRun (α : Type) where
  fetched : Except String α
  analyze : α → Except String (List RoomAvailability)

/-- The per-backend loop of run_single_check: a backend whose fetch was
caught as None is skipped with continue; an exceptional analysis outcome
propagates, aborting the whole traversal. -/
def gatherAvailability {α : Type} : List (BackendRun α) → Except String (List RoomAvailability)
  | [] => Except.ok []
  | b :: rest =>
    match call_api b.fetched with
    | none => gatherAvailability rest
    | some data =>
      match b.analyze data with
      | Except.error e => Except.error e
      | Except.ok recs =>
        match gatherAvailability rest with
        | Except.error e => Except.error e
        | Except.ok more => Except.ok (recs ++ more)

/-- What one completed check cycle produces: the diff, whether the
notification fan-out was triggered, and the state written back. -/
structure CycleResult where
  changes : DiffResult
  notified : Bool
  saved_state : List AvailTuple
deriving DecidableEq

/-- run_single_check: gather all backends' records, diff against the prior
snapshot, notify when the diff reports changes, and save the new state; an
exceptional outcome of the gathering stage aborts the cycle before any of
diff, notification and state save. -/
def run_single_check {α : Type} (backends : List (BackendRun α)) (prev : List AvailTuple) :
    Except String CycleResult :=
  match gatherAvailability backends with
  | Except.error e => Except.error e
  | Except.ok allAvailability =>
    let changes := detect_changes allAvailability prev
    Except.ok { changes := changes, notified := changes.has_changes,
                saved_state := changes.current_available }

/-- Abstract page environment of navigate_to_target_month: fetching a URL
yields a page (none models an exception raised inside the loop body, which
the source catches and turns into a break), a target test, and the located
next-period control leading to a new URL (none when no control is found). -/
structure NavEnv (Page : Type) where
  fetch : String → Option Page
  isTarget : Page → Bool
  next : Page → Option String

/-- The page used by one loop iteration: the caller-provided initial soup
on the first iteration, a fresh fetch of the current URL otherwise. -/
def fetchPage {Page : Type} (env : NavEnv Page) (soup0 : Option Page) (url : String) :
    Option Page :=
  match soup0 with
  | some s => some s
  | none => env.fetch url

/-- The navigation loop of navigate_to_target_month. `fuel` is the
remaining click budget (max_clicks minus clicks); `soup0` carries the
caller-provided initial soup used instead of fetching on the first
iteration. The third component of the result counts the navigation steps
performed. -/
def navLoop {Page : Type} (env : NavEnv Page) :
    Nat → Option Page → String → Option Page × String × Nat
  | 0, _, url => (none, url, 0)
  | fuel + 1, soup0, url =>
    match fetchPage env soup0 url with
    | none => (none, url, 0)
    | some soup =>
      if env.isTarget soup then (some soup, url, 0)
      else
        match env.next soup with
        | none => (none, url, 0)
        | some url2 =>
          let r := navLoop env fuel none url2
          (r.1, r.2.1, r.2.2 + 1)

/-- navigate_to_target_month with its hard-coded budget of 15 clicks. -/
def navigate_to_target_month {Page : Type} (env : NavEnv Page)
    (initialSoup : Option Page) (baseUrl : String) : Option Page × String × Nat :=
  navLoop env 15 initialSoup baseUrl

/-- Notification channel configuration reduced to the derived enabled flag
(presence of the channel's required environment credentials). -/
structure ChannelConfig where
  enabled : Bool
deriving DecidableEq

/-- The five channel configurations of the dispatcher. -/
structure NotificationConfig where
  email : ChannelConfig
  discord : ChannelConfig
  slack : ChannelConfig
  pushover : ChannelConfig
  telegram : ChannelConfig
deriving DecidableEq

/-- Outcomes of the five channels' raw send operations (the bodies of the
per-channel try blocks). -/
structure ChannelOutcomes where
  email : Except String Unit
  discord : Except String Unit
  slack : Except String Unit
  pushover : Except String Unit
  telegram : Except String Unit

/-- What one channel invocation amounts to after its own handlers. -/
inductive ChannelResult where
  | skipped
  | sent
  | failed (msg : String)
deriving DecidableEq

/-- Common shape of every send_X_notification: return immediately when the
channel is disabled; otherwise run the send and catch its failure, logging
instead of raising. -/
def runChannel (cfg : ChannelConfig) (outcome : Except String Unit) : ChannelResult :=
  if cfg.enabled then
    match outcome with
    | Except.ok _ => ChannelResult.sent
    | Except.error e => ChannelResult.failed e
  else ChannelResult.skipped

/-- send_email_notification. -/
def send_email_notification (cfg : ChannelConfig) (o : Except String Unit) : ChannelResult :=
  runChannel cfg o

/-- send_discord_notification. -/
def send_discord_notification (cfg : ChannelConfig) (o : Except String Unit) : ChannelResult :=
  runChannel cfg o

/-- send_slack_notification. -/
def send_slack_notification (cfg : ChannelConfig) (o : Except String Unit) : ChannelResult :=
  runChannel cfg o

/-- send_pushover_notification. -/
def send_pushover_notification (cfg : ChannelConfig) (o : Except String Unit) : ChannelResult :=
  runChannel cfg o

/-- send_telegram_notification. -/
def send_telegram_notification (cfg : ChannelConfig) (o : Except String Unit) : ChannelResult :=
  runChannel cfg o

/-- notify_all: the five channel senders invoked in source order; each
result slot is produced by its own channel alone. -/
def notify_all (cfg : NotificationConfig) (o : ChannelOutcomes) : List ChannelResult :=
  [send_email_notification cfg.email o.email,
   send_discord_notification cfg.discord o.discord,
   send_slack_notification cfg.slack o.slack,
   send_pushover_notification cfg.pushover o.pushover,
   send_telegram_notification cfg.telegram o.telegram]

/-- Concrete available record used in example instantiations. -/
def recKami : RoomAvailability :=
  { room_name := "Kamikochi Taisho-ike Hotel - Standard", date := "2025-10-24",
    available_count := 2, price := "¥8000", status := "available" }

/-- Concrete prior snapshot carrying the same key as recKami with different
count and price. -/
def prevKami : List AvailTuple :=
  [{ room := "Kamikochi Taisho-ike Hotel - Standard", date := "2025-10-24",
     count := 5, price := "¥9000" }]

/-- Concrete JSONP hotel configuration. -/
def cfgJsonp : HotelConfig :=
  { name := "Kamikochi Taisho-ike Hotel", target_dates := ["2025-10-24", "2025-10-25"] }

/-- A JSONP room whose payload carries a negative stock count together with
a matching non-zero price entry. -/
def roomNeg : Room :=
  { room_id := "101", room_name_eng := some "Standard",
    aki := [{ aki_date := "2025/10/24", aki_num := -1 }],
    plans := [{ prices := [{ price_date := "2025/10/24", price_2 := "8000" }] }] }

/-- JSONP payload containing roomNeg. -/
def dataNeg : JsonpData := { rooms := [roomNeg] }

/-- A well-formed JSONP room with a positive stock count and no plans. -/
def roomTwin : Room :=
  { room_id := "102", room_name_eng := some "Twin",
    aki := [{ aki_date := "2025/10/24", aki_num := 2 }], plans := [] }

/-- JSONP payload containing roomTwin. -/
def dataTwin : JsonpData := { rooms := [roomTwin] }

/-- The record analyze_jsonp_data produces from dataTwin. -/
def recTwin : RoomAvailability :=
  { room_name := "Kamikochi Taisho-ike Hotel - Twin", date := "2025-10-24",
    available_count := 2, price := "No price", status := "available" }

/-- The record analyze_jsonp_data produces from dataNeg: a negative count
with a sold_out status. -/
def recNeg : RoomAvailability :=
  { room_name := "Kamikochi Taisho-ike Hotel - Standard", date := "2025-10-24",
    available_count := -1, price := "¥8000", status := "sold_out" }

/-- The record analyze_html_calendar_data produces from monthCircle. -/
def recFeb14 : RoomAvailability :=
  { room_name := "Ginzanso - Room", date := "2026-02-14", available_count := 1,
    price := "Check website", status := "available" }

/-- Concrete HTML-calendar hotel configuration. -/
def cfgHtml : HotelConfig := { name := "Ginzanso", target_dates := ["2026-02"] }

/-- A day cell whose minus icon precedes its circle icon. -/
def cellMinusFirst : DayCell :=
  { dateElem := some ["2026-02-14"],
    icons := [["fa-solid", "fa-minus", "text-danger"], ["fa-regular", "fa-circle"]] }

/-- Month payload holding only cellMinusFirst. -/
def monthMinusFirst : MonthData :=
  { calendarCaption := "2026年2月", data := [[cellMinusFirst]] }

/-- A day cell holding a single circle icon. -/
def cellCircle : DayCell :=
  { dateElem := some ["2026-02-14"], icons := [["fa-regular", "fa-circle"]] }

/-- Month payload holding only cellCircle. -/
def monthCircle : MonthData :=
  { calendarCaption := "2026年2月", data := [[cellCircle]] }

/-- Two available records sharing one (room, date) key with different
counts and prices. -/
def dupCurrent : List RoomAvailability :=
  [{ room_name := "R", date := "2025-10-24", available_count := 1,
     price := "¥1000", status := "available" },
   { room_name := "R", date := "2025-10-24", available_count := 2,
     price := "¥2000", status := "available" }]

/-- A record contributed by a surviving backend in the cycle examples. -/
def recGinzanso : RoomAvailability :=
  { room_name := "Ginzanso - Room", date := "2026-02-01", available_count := 1,
    price := "Check website", status := "available" }

/-- Two backends whose fetches succeed; the first backend's analysis stage
raises, the second analyzes to one record. -/
def cexBackends : List (BackendRun Unit) :=
  [{ fetched := Except.ok (), analyze := fun _ => Except.error "boom" },
   { fetched := Except.ok (), analyze := fun _ => Except.ok [recGinzanso] }]

/-- Two backends where the first backend's fetch times out and the second
succeeds throughout. -/
def goodBackends : List (BackendRun Unit) :=
  [{ fetched := Except.error "timeout", analyze := fun _ => Except.ok [] },
   { fetched := Except.ok (), analyze := fun _ => Except.ok [recGinzanso] }]

/-- A navigation environment in which no page ever shows the target month
and a next-period control is always present. -/
def envLoop : NavEnv Nat :=
  { fetch := fun _ => some 0, isTarget := fun _ => false, next := fun _ => some "next" }

/-- Concrete notification configuration: email and pushover disabled. -/
def cfgNotif : NotificationConfig :=
  { email := { enabled := false }, discord := { enabled := true },
    slack := { enabled := true }, pushover := { enabled := false },
    telegram := { enabled := true } }

/-- Concrete channel outcomes with two failing sends. -/
def outcomesA : ChannelOutcomes :=
  { email := Except.ok (), discord := Except.error "http 500", slack := Except.ok (),
    pushover := Except.ok (), telegram := Except.error "timeout" }

/-- The outcomes of outcomesA with the email and slack sends altered. -/
def outcomesB : ChannelOutcomes :=
  { email := Except.error "smtp down", discord := Except.error "http 500",
    slack := Except.error "dns", pushover := Except.ok (), telegram := Except.error "timeout" }

/-- A yen-prefixed price string never equals the sentinel No price. -/
lemma yen_ne_noprice (s : String) : ("¥" ++ s) ≠ "No price" := by
  intro h
  have h2 : ("¥" ++ s).data = "No price".data := by rw [h]
  rw [String.data_append] at h2
  have h3 : ('¥' : Char) :: s.data = ['N', 'o', ' ', 'p', 'r', 'i', 'c', 'e'] := h2
  injection h3 with hc _
  exact absurd hc (by decide)

/-- Result of the inner price fold: either no entry matched and the
accumulator is returned, or the last matching entry's yen price is. -/
lemma inner_price_fold (date : String) (l : List PriceInfo) (acc : String) :
    (l.foldl
        (fun acc2 pi =>
          if normDate pi.price_date == date then
            if pi.price_2 != "0" then "¥" ++ pi.price_2 else acc2
          else acc2)
        acc = acc ∧
      l.any (fun pi => normDate pi.price_date == date && pi.price_2 != "0") = false) ∨
    (∃ pi ∈ l, (normDate pi.price_date == date && pi.price_2 != "0") = true ∧
      l.foldl
        (fun acc2 pi =>
          if normDate pi.price_date == date then
            if pi.price_2 != "0" then "¥" ++ pi.price_2 else acc2
          else acc2)
        acc = "¥" ++ pi.price_2) := by
  induction l generalizing acc with
  | nil => exact Or.inl ⟨rfl, rfl⟩
  | cons p rest ih =>
    by_cases hd : normDate p.price_date == date
    · by_cases hp : p.price_2 != "0"
      · have hcond : (normDate p.price_date == date && p.price_2 != "0") = true := by
          rw [hd, hp]; rfl
        have hstep : (p :: rest).foldl
            (fun acc2 pi =>
              if normDate pi.price_date == date then
                if pi.price_2 != "0" then "¥" ++ pi.price_2 else acc2
              else acc2) acc
            = rest.foldl
            (fun acc2 pi =>
              if normDate pi.price_date == date then
                if pi.price_2 != "0" then "¥" ++ pi.price_2 else acc2
              else acc2) ("¥" ++ p.price_2) := by
          rw [List.foldl_cons, if_pos hd, if_pos hp]
        rcases ih ("¥" ++ p.price_2) with ⟨heq, _⟩ | ⟨pi, hmem, hcond2, heq⟩
        · exact Or.inr ⟨p, List.mem_cons_self p rest, hcond, by rw [hstep, heq]⟩
        · exact Or.inr ⟨pi, List.mem_cons_of_mem p hmem, hcond2, by rw [hstep, heq]⟩
      · have hp' : (p.price_2 != "0") = false := by
          revert hp; cases p.price_2 != "0" <;> simp
        have hstep : (p :: rest).foldl
            (fun acc2 pi =>
              if normDate pi.price_date == date then
                if pi.price_2 != "0" then "¥" ++ pi.price_2 else acc2
              else acc2) acc
            = rest.foldl
            (fun acc2 pi =>
              if normDate pi.price_date == date then
                if pi.price_2 != "0" then "¥" ++ pi.price_2 else acc2
              else acc2) acc := by
          rw [List.foldl_cons, if_pos hd, if_neg hp]
        rcases ih acc with ⟨heq, hany⟩ | ⟨pi, hmem, hcond2, heq⟩
        · refine Or.inl ⟨by rw [hstep, heq], ?_⟩
          simp [List.any_cons, hany, hp', hd]
        · exact Or.inr ⟨pi, List.mem_cons_of_mem p hmem, hcond2, by rw [hstep, heq]⟩
    · have hd' : (normDate p.price_date == date) = false := by
        revert hd; cases normDate p.price_date == date <;> simp
      have hstep : (p :: rest).foldl
          (fun acc2 pi =>
            if normDate pi.price_date == date then
              if pi.price_2 != "0" then "¥" ++ pi.price_2 else acc2
            else acc2) acc
          = rest.foldl
          (fun acc2 pi =>
            if normDate pi.price_date == date then
              if pi.price_2 != "0" then "¥" ++ pi.price_2 else acc2
            else acc2) acc := by
        rw [List.foldl_cons, if_neg hd]
      rcases ih acc with ⟨heq, hany⟩ | ⟨pi, hmem, hcond2, heq⟩
      · refine Or.inl ⟨by rw [hstep, heq], ?_⟩
        simp [List.any_cons, hany, hd']
      · exact Or.inr ⟨pi, List.mem_cons_of_mem p hmem, hcond2, by rw [hstep, heq]⟩

/-- Result of the full nested price scan: either no plan has a matching
non-zero price entry and the sentinel accumulator survives, or the result
is the yen price of a matching entry. -/
lemma outer_price_fold (date : String) (ps : List Plan) (acc : String) :
    (ps.foldl
        (fun acc plan =>
          plan.prices.foldl
            (fun acc2 pi =>
              if normDate pi.price_date == date then
                if pi.price_2 != "0" then "¥" ++ pi.price_2 else acc2
              else acc2)
            acc)
        acc = acc ∧
      ps.any (fun plan =>
        plan.prices.any (fun pi =>
          normDate pi.price_date == date && pi.price_2 != "0")) = false) ∨
    (∃ plan ∈ ps, ∃ pi ∈ plan.prices,
      (normDate pi.price_date == date && pi.price_2 != "0") = true ∧
      ps.foldl
        (fun acc plan =>
          plan.prices.foldl
            (fun acc2 pi =>
              if normDate pi.price_date == date then
                if pi.price_2 != "0" then "¥" ++ pi.price_2 else acc2
              else acc2)
            acc)
        acc = "¥" ++ pi.price_2) := by
  induction ps generalizing acc with
  | nil => exact Or.inl ⟨rfl, rfl⟩
  | cons p rest ih =>
    rcases inner_price_fold date p.prices acc with ⟨hin, hinany⟩ | ⟨pi, hpi, hcond, hin⟩
    · rcases ih acc with ⟨hout, houtany⟩ | ⟨plan, hplan, pi, hpi, hcond, hout⟩
      · refine Or.inl ⟨?_, ?_⟩
        · rw [List.foldl_cons, hin, hout]
        · simp [List.any_cons, hinany, houtany]
      · exact Or.inr ⟨plan, List.mem_cons_of_mem p hplan, pi, hpi, hcond, by
          rw [List.foldl_cons, hin, hout]⟩
    · rcases ih ("¥" ++ pi.price_2) with ⟨hout, houtany⟩ | ⟨plan, hplan, pi2, hpi2, hcond2, hout⟩
      · exact Or.inr ⟨p, List.mem_cons_self p rest, pi, hpi, hcond, by
          rw [List.foldl_cons, hin, hout]⟩
      · exact Or.inr ⟨plan, List.mem_cons_of_mem p hplan, pi2, hpi2, hcond2, by
          rw [List.foldl_cons, hin, hout]⟩

/-- The price string differs from the sentinel exactly when some matching
non-zero price entry exists. -/
lemma priceFor_bne_eq (room : Room) (date : String) :
    (priceFor room date != "No price") = priceFound room date := by
  rcases outer_price_fold date room.plans "No price" with ⟨heq, hany⟩ | ⟨plan, hplan, pi, hpi, hcond, heq⟩
  · have h1 : priceFor room date = "No price" := heq
    have h2 : priceFound room date = false := hany
    rw [h1, h2]
    simp
  · have h1 : priceFor room date = "¥" ++ pi.price_2 := heq
    have h2 : priceFound room date = true := by
      rw [priceFound, List.any_eq_true]
      exact ⟨plan, hplan, by rw [List.any_eq_true]; exact ⟨pi, hpi, hcond⟩⟩
    rw [h1, h2, bne_iff_ne]
    exact yen_ne_noprice pi.price_2

/-- The status derivation phrased through priceFound. -/
lemma jsonpStatus_spec (room : Room) (date : String) (available : Int) :
    jsonpStatus room date available =
      (if available > 0 then "available"
       else if priceFound room date then "sold_out" else "not_bookable") := by
  rw [jsonpStatus, priceFor_bne_eq]

/-- A JSONP record's status is available exactly when its count is
positive. -/
lemma jsonpStatus_available_iff (room : Room) (date : String) (available : Int) :
    jsonpStatus room date available = "available" ↔ 0 < available := by
  rw [jsonpStatus_spec]
  by_cases h : available > 0
  · simp [h]
  · rw [if_neg h]
    by_cases hp : priceFound room date
    · simp [hp, h]
    · simp [hp, h]

/-- The JSONP status derivation never yields not_released. -/
lemma jsonpStatus_ne_notreleased (room : Room) (date : String) (available : Int) :
    jsonpStatus room date available ≠ "not_released" := by
  rw [jsonpStatus]
  split
  · decide
  · split <;> decide

/-- Membership in the JSONP analysis output. -/
lemma mem_analyze_jsonp {data : JsonpData} {cfg : HotelConfig} {r : RoomAvailability} :
    r ∈ analyze_jsonp_data data cfg ↔
      ∃ room ∈ data.rooms, ∃ a ∈ room.aki,
        cfg.target_dates.contains (normDate a.aki_date) = true ∧
        mkJsonpRecord cfg room a = r := by
  rw [analyze_jsonp_data, List.mem_flatMap]
  constructor
  · rintro ⟨room, hroom, hr⟩
    rw [List.mem_map] at hr
    rcases hr with ⟨a, ha, heq⟩
    rw [List.mem_filter] at ha
    exact ⟨room, hroom, a, ha.1, ha.2, heq⟩
  · rintro ⟨room, hroom, a, ha, hcont, heq⟩
    exact ⟨room, hroom, List.mem_map.mpr ⟨a, List.mem_filter.mpr ⟨ha, hcont⟩, heq⟩⟩

/-- The icon classification takes one of exactly four values. -/
lemma classifyIcons_cases (icons : List (List String)) :
    classifyIcons icons = ("available", 1) ∨ classifyIcons icons = ("sold_out", 0) ∨
    classifyIcons icons = ("not_released", 0) ∨ classifyIcons icons = ("not_bookable", 0) := by
  induction icons with
  | nil => right; right; right; rfl
  | cons icon rest ih =>
    simp only [classifyIcons]
    split
    · left; rfl
    · split
      · left; rfl
      · split
        · right; left; rfl
        · split
          · right; right; left; rfl
          · exact ih

/-- Facts about any record a day cell analysis yields. -/
lemma analyzeCell_some_facts {name : String} {cell : DayCell} {r : RoomAvailability}
    (h : analyzeCell name cell = some r) :
    r.status = (classifyIcons cell.icons).1 ∧
    r.available_count = (classifyIcons cell.icons).2 ∧
    r.status ≠ "not_released" := by
  obtain ⟨de, icons⟩ := cell
  cases de with
  | none => simp [analyzeCell] at h
  | some classes =>
    cases hf : classes.find? (fun c => strStarts c "2026-02-") with
    | none => simp [analyzeCell, hf] at h
    | some dstr =>
      simp only [analyzeCell, hf] at h
      split at h
      · next hbne =>
        injection h with h
        subst h
        exact ⟨rfl, rfl, by rw [← bne_iff_ne]; exact hbne⟩
      · exact absurd h (by simp)

/-- Membership in the HTML calendar analysis output. -/
lemma mem_analyze_html {api : List MonthData} {cfg : HotelConfig} {r : RoomAvailability} :
    r ∈ analyze_html_calendar_data api cfg ↔
      ∃ m, api.find? (fun m => strContainsSub m.calendarCaption "2026年2月") = some m ∧
        ∃ week ∈ m.data, ∃ cell ∈ week, analyzeCell cfg.name cell = some r := by
  rw [analyze_html_calendar_data]
  cases hf : api.find? (fun m => strContainsSub m.calendarCaption "2026年2月") with
  | none => simp
  | some m => simp [List.mem_flatMap, List.mem_filterMap]

/-- new_available unfolded. -/
lemma detect_new_def (current : List RoomAvailability) (previous : List AvailTuple) :
    (detect_changes current previous).new_available =
      (currentAvailable current).filter
        (fun room => !(previous.any (fun p => sameKey p room))) := rfl

/-- lost_available unfolded. -/
lemma detect_lost_def (current : List RoomAvailability) (previous : List AvailTuple) :
    (detect_changes current previous).lost_available =
      previous.filter
        (fun room => !((currentAvailable current).any (fun c => sameKey c room))) := rfl

/-- current_available unfolded. -/
lemma detect_cur_def (current : List RoomAvailability) (previous : List AvailTuple) :
    (detect_changes current previous).current_available = currentAvailable current := rfl

/-- has_changes unfolded. -/
lemma detect_has_def (current : List RoomAvailability) (previous : List AvailTuple) :
    (detect_changes current previous).has_changes =
      (!(detect_changes current previous).new_available.isEmpty ||
       !(detect_changes current previous).lost_available.isEmpty) := rfl

/-- Emptiness test negated. -/
lemma isEmpty_false_iff (l : List AvailTuple) : (l.isEmpty = false) ↔ l ≠ [] := by
  cases l <;> simp

/-- A tuple reflexively matches its own key. -/
lemma sameKey_self (t : AvailTuple) : sameKey t t = true := by
  simp [sameKey]

/-- Membership in new_available is presence in the current available set
together with absence of the key from the prior snapshot. -/
lemma mem_new_iff (current : List RoomAvailability) (previous : List AvailTuple)
    (t : AvailTuple) :
    t ∈ (detect_changes current previous).new_available ↔
      t ∈ currentAvailable current ∧ ∀ p ∈ previous, sameKey p t = false := by
  rw [detect_new_def, List.mem_filter, Bool.not_eq_true', List.any_eq_false]
  simp [Bool.not_eq_true]

/-- Membership in lost_available is presence in the prior snapshot together
with absence of the key from the current available set. -/
lemma mem_lost_iff (current : List RoomAvailability) (previous : List AvailTuple)
    (t : AvailTuple) :
    t ∈ (detect_changes current previous).lost_available ↔
      t ∈ previous ∧ ∀ c ∈ currentAvailable current, sameKey c t = false := by
  rw [detect_lost_def, List.mem_filter, Bool.not_eq_true', List.any_eq_false]
  simp [Bool.not_eq_true]

/-- Membership in the current available set. -/
lemma mem_currentAvailable (current : List RoomAvailability) (t : AvailTuple) :
    t ∈ currentAvailable current ↔
      ∃ r ∈ current, r.status = "available" ∧ toTuple r = t := by
  rw [currentAvailable, List.mem_map]
  constructor
  · rintro ⟨r, hr, heq⟩
    rw [List.mem_filter] at hr
    exact ⟨r, hr.1, by have h := hr.2; rwa [beq_iff_eq] at h, heq⟩
  · rintro ⟨r, hr, hst, heq⟩
    exact ⟨r, List.mem_filter.mpr ⟨hr, by rwa [beq_iff_eq]⟩, heq⟩

/-- C1: when the current available records and the prior snapshot carry
exactly the same set of (room, date) keys, detect_changes reports empty
new_available and lost_available and has_changes false, whatever the count
and price fields are; and membership of a tuple in new_available or
lost_available is decided purely by presence or absence of its (room, date)
key in the other input, never by count or price. -/
theorem detect_changes_key_equality
    (current : List RoomAvailability) (previous : List AvailTuple)
    (hsub : ∀ t ∈ currentAvailable current, ∃ p ∈ previous, sameKey p t = true)
    (hsup : ∀ p ∈ previous, ∃ t ∈ currentAvailable current, sameKey t p = true) :
    ((detect_changes current previous).new_available = [] ∧
     (detect_changes current previous).lost_available = [] ∧
     (detect_changes current previous).has_changes = false) ∧
    (∀ (cur2 : List RoomAvailability) (prev2 : List AvailTuple) (t : AvailTuple),
      (t ∈ (detect_changes cur2 prev2).new_available ↔
        t ∈ currentAvailable cur2 ∧ ∀ p ∈ prev2, sameKey p t = false) ∧
      (t ∈ (detect_changes cur2 prev2).lost_available ↔
        t ∈ prev2 ∧ ∀ c ∈ currentAvailable cur2, sameKey c t = false)) := by
  have hnew : (detect_changes current previous).new_available = [] := by
    rw [detect_new_def, List.filter_eq_nil_iff]
    intro t ht
    rcases hsub t ht with ⟨p, hp, hk⟩
    have hany : previous.any (fun p => sameKey p t) = true :=
      List.any_eq_true.mpr ⟨p, hp, hk⟩
    simp [hany]
  have hlost : (detect_changes current previous).lost_available = [] := by
    rw [detect_lost_def, List.filter_eq_nil_iff]
    intro p hp
    rcases hsup p hp with ⟨t, ht, hk⟩
    have hany : (currentAvailable current).any (fun c => sameKey c p) = true :=
      List.any_eq_true.mpr ⟨t, ht, hk⟩
    simp [hany]
  refine ⟨⟨hnew, hlost, ?_⟩, ?_⟩
  · rw [detect_has_def, hnew, hlost]
    rfl
  · intro cur2 prev2 t
    exact ⟨mem_new_iff cur2 prev2 t, mem_lost_iff cur2 prev2 t⟩

/-- Witness for detect_changes_key_equality: one current record and one
prior tuple with the same key but different count and price. -/
theorem detect_changes_key_equality_witness :
    (detect_changes [recKami] prevKami).new_available = [] ∧
    (detect_changes [recKami] prevKami).lost_available = [] ∧
    (detect_changes [recKami] prevKami).has_changes = false :=
  (detect_changes_key_equality [recKami] prevKami (by decide) (by decide)).1

/-- C2: new_available and lost_available share no key; every prior tuple is
in exactly one of unchanged (key present in the current available set) and
lost_available; every current available tuple is in exactly one of
unchanged and new_available; has_changes holds exactly when one of the two
sets is non-empty; and diffing a set against itself yields no changes. -/
theorem detect_changes_partition
    (current : List RoomAvailability) (previous : List AvailTuple) :
    (∀ t ∈ (detect_changes current previous).new_available,
       ∀ p ∈ (detect_changes current previous).lost_available, sameKey t p = false) ∧
    (∀ p ∈ previous,
       ((∃ t ∈ currentAvailable current, sameKey t p = true) ∧
          p ∉ (detect_changes current previous).lost_available) ∨
       (¬(∃ t ∈ currentAvailable current, sameKey t p = true) ∧
          p ∈ (detect_changes current previous).lost_available)) ∧
    (∀ t ∈ currentAvailable current,
       ((∃ p ∈ previous, sameKey p t = true) ∧
          t ∉ (detect_changes current previous).new_available) ∨
       (¬(∃ p ∈ previous, sameKey p t = true) ∧
          t ∈ (detect_changes current previous).new_available)) ∧
    ((detect_changes current previous).has_changes = true ↔
       ((detect_changes current previous).new_available ≠ [] ∨
        (detect_changes current previous).lost_available ≠ [])) ∧
    (∀ cur2 : List RoomAvailability,
       (detect_changes cur2 (currentAvailable cur2)).new_available = [] ∧
       (detect_changes cur2 (currentAvailable cur2)).lost_available = [] ∧
       (detect_changes cur2 (currentAvailable cur2)).has_changes = false) := by
  refine ⟨?_, ?_, ?_, ?_, ?_⟩
  · intro t ht p hp
    rw [mem_new_iff] at ht
    rw [mem_lost_iff] at hp
    exact hp.2 t ht.1
  · intro p hp
    by_cases h : ∃ t ∈ currentAvailable current, sameKey t p = true
    · left
      refine ⟨h, ?_⟩
      rw [mem_lost_iff]
      rintro ⟨-, hall⟩
      rcases h with ⟨t, ht, hk⟩
      have := hall t ht
      rw [hk] at this
      exact absurd this (by decide)
    · right
      refine ⟨h, ?_⟩
      rw [mem_lost_iff]
      refine ⟨hp, fun c hc => ?_⟩
      by_contra hne
      exact h ⟨c, hc, by revert hne; cases sameKey c p <;> simp⟩
  · intro t ht
    by_cases h : ∃ p ∈ previous, sameKey p t = true
    · left
      refine ⟨h, ?_⟩
      rw [mem_new_iff]
      rintro ⟨-, hall⟩
      rcases h with ⟨p, hp, hk⟩
      have := hall p hp
      rw [hk] at this
      exact absurd this (by decide)
    · right
      refine ⟨h, ?_⟩
      rw [mem_new_iff]
      refine ⟨ht, fun p hp => ?_⟩
      by_contra hne
      exact h ⟨p, hp, by revert hne; cases sameKey p t <;> simp⟩
  · rw [detect_has_def, Bool.or_eq_true, Bool.not_eq_true', Bool.not_eq_true',
      isEmpty_false_iff, isEmpty_false_iff]
  · intro cur2
    have hnew : (detect_changes cur2 (currentAvailable cur2)).new_available = [] := by
      rw [detect_new_def, List.filter_eq_nil_iff]
      intro t ht
      have hany : (currentAvailable cur2).any (fun p => sameKey p t) = true :=
        List.any_eq_true.mpr ⟨t, ht, sameKey_self t⟩
      simp [hany]
    have hlost : (detect_changes cur2 (currentAvailable cur2)).lost_available = [] := by
      rw [detect_lost_def, List.filter_eq_nil_iff]
      intro p hp
      have hany : (currentAvailable cur2).any (fun c => sameKey c p) = true :=
        List.any_eq_true.mpr ⟨p, hp, sameKey_self p⟩
      simp [hany]
    exact ⟨hnew, hlost, by rw [detect_has_def, hnew, hlost]; rfl⟩

/-- Witness for detect_changes_partition: a lost-only diff has changes. -/
theorem detect_changes_partition_witness :
    (detect_changes [] prevKami).has_changes = true :=
  ((detect_changes_partition [] prevKami).2.2.2.1).mpr (Or.inr (by decide))

/-- C10 counterexample: two available records with the same (room, date)
key both survive into current_available, so the diff input is not
deduplicated to at most one tuple per key. -/
theorem current_available_duplicate_keys_cex :
    ¬ ((detect_changes dupCurrent []).current_available.Pairwise
        (fun a b => sameKey a b = false)) := by decide

/-- C10 (amended): detect_changes performs no deduplication: for every
(room, date) key, current_available holds exactly as many tuples with that
key as there are status-available records with that key in the input, so
duplicate keys all survive. -/
theorem current_available_key_multiplicity
    (current : List RoomAvailability) (previous : List AvailTuple) (rm dt : String) :
    ((detect_changes current previous).current_available.countP
        (fun t => t.room == rm && t.date == dt)) =
      current.countP
        (fun r => r.status == "available" && (r.room_name == rm && r.date == dt)) := by
  rw [detect_cur_def, currentAvailable, List.countP_map, List.countP_filter]
  congr 1
  funext r
  simp [Function.comp, toTuple, Bool.and_comm]

/-- C7: neither adapter ever returns a record with status not_released, and
every tuple entering the diff's current available set stems from a
status-available record, so not_released never reaches the diff inputs,
outputs, or notifications. -/
theorem adapters_no_not_released :
    (∀ (data : JsonpData) (cfg : HotelConfig) (r : RoomAvailability),
        r ∈ analyze_jsonp_data data cfg → r.status ≠ "not_released") ∧
    (∀ (api : List MonthData) (cfg : HotelConfig) (r : RoomAvailability),
        r ∈ analyze_html_calendar_data api cfg → r.status ≠ "not_released") ∧
    (∀ (current : List RoomAvailability) (t : AvailTuple),
        t ∈ currentAvailable current →
          ∃ r ∈ current, r.status = "available" ∧ toTuple r = t) := by
  refine ⟨?_, ?_, ?_⟩
  · intro data cfg r hr
    rcases mem_analyze_jsonp.mp hr with ⟨room, _, a, _, _, heq⟩
    rw [← heq]
    exact jsonpStatus_ne_notreleased room (normDate a.aki_date) a.aki_num
  · intro api cfg r hr
    rcases mem_analyze_html.mp hr with ⟨m, _, week, _, cell, _, hc⟩
    exact (analyzeCell_some_facts hc).2.2
  · intro current t ht
    exact (mem_currentAvailable current t).mp ht

/-- Witness for adapters_no_not_released at a concrete calendar payload. -/
theorem adapters_no_not_released_witness :
    recFeb14.status ≠ "not_released" :=
  adapters_no_not_released.2.1 [monthCircle] cfgHtml recFeb14 (by decide)

/-- C4 counterexample: a JSONP payload with a negative stock count yields a
record whose available_count is negative, refuting unconditional
non-negativity of available_count. -/
theorem analyze_jsonp_negative_count_cex :
    recNeg ∈ analyze_jsonp_data dataNeg cfgJsonp ∧ recNeg.available_count < 0 := by
  decide

/-- C4 (amended): for both adapters a record's status is available exactly
when its count is positive, and non-available records have count at most 0;
the HTML adapter's counts always lie in 0..1; the JSONP adapter's counts
are non-negative whenever every aki_num of the payload is non-negative. -/
theorem availability_status_iff :
    (∀ (data : JsonpData) (cfg : HotelConfig) (r : RoomAvailability),
        r ∈ analyze_jsonp_data data cfg →
          ((r.status = "available" ↔ 0 < r.available_count) ∧
            (r.status ≠ "available" → r.available_count ≤ 0))) ∧
    (∀ (api : List MonthData) (cfg : HotelConfig) (r : RoomAvailability),
        r ∈ analyze_html_calendar_data api cfg →
          ((r.status = "available" ↔ 0 < r.available_count) ∧
            0 ≤ r.available_count ∧ r.available_count ≤ 1)) ∧
    (∀ (data : JsonpData) (cfg : HotelConfig) (r : RoomAvailability),
        (∀ room ∈ data.rooms, ∀ a ∈ room.aki, 0 ≤ a.aki_num) →
        r ∈ analyze_jsonp_data data cfg → 0 ≤ r.available_count) := by
  refine ⟨?_, ?_, ?_⟩
  · intro data cfg r hr
    rcases mem_analyze_jsonp.mp hr with ⟨room, _, a, _, _, heq⟩
    subst heq
    refine ⟨jsonpStatus_available_iff room (normDate a.aki_date) a.aki_num, ?_⟩
    intro hne
    by_contra hpos
    exact hne ((jsonpStatus_available_iff room (normDate a.aki_date) a.aki_num).mpr
      (by rwa [Int.not_le] at hpos))
  · intro api cfg r hr
    rcases mem_analyze_html.mp hr with ⟨m, _, week, _, cell, _, hc⟩
    obtain ⟨hst, hcnt, hne⟩ := analyzeCell_some_facts hc
    rcases classifyIcons_cases cell.icons with h | h | h | h
    · rw [h] at hst hcnt
      exact ⟨by simp [hst, hcnt], by rw [hcnt]; exact ⟨by decide, by decide⟩⟩
    · rw [h] at hst hcnt
      exact ⟨by simp [hst, hcnt], by rw [hcnt]; exact ⟨by decide, by decide⟩⟩
    · rw [h] at hst
      exact absurd hst hne
    · rw [h] at hst hcnt
      exact ⟨by simp [hst, hcnt], by rw [hcnt]; exact ⟨by decide, by decide⟩⟩
  · intro data cfg r hnn hr
    rcases mem_analyze_jsonp.mp hr with ⟨room, hroom, a, ha, _, heq⟩
    subst heq
    exact hnn room hroom a ha

/-- Witness for availability_status_iff at a concrete JSONP payload. -/
theorem availability_status_iff_witness :
    (recTwin.status = "available" ↔ 0 < recTwin.available_count) ∧
    0 ≤ recTwin.available_count :=
  ⟨(availability_status_iff.1 dataTwin cfgJsonp recTwin (by decide)).1,
   availability_status_iff.2.2 dataTwin cfgJsonp recTwin (by decide) (by decide)⟩

/-- C5: every JSONP record's date is normalized (slash to dash) and lies in
the configured target-date set, and its status is derived exactly as:
positive count gives available, else a matching non-zero price entry found
anywhere in the room's nested plan and price structure gives sold_out, else
not_bookable. -/
theorem analyze_jsonp_status_derivation
    (data : JsonpData) (cfg : HotelConfig) (r : RoomAvailability)
    (hr : r ∈ analyze_jsonp_data data cfg) :
    cfg.target_dates.contains r.date = true ∧
    ∃ room ∈ data.rooms, ∃ a ∈ room.aki,
      r.date = normDate a.aki_date ∧
      r.available_count = a.aki_num ∧
      r.status = (if 0 < r.available_count then "available"
                  else if priceFound room r.date = true then "sold_out"
                  else "not_bookable") := by
  rcases mem_analyze_jsonp.mp hr with ⟨room, hroom, a, ha, hcont, heq⟩
  subst heq
  refine ⟨hcont, room, hroom, a, ha, rfl, rfl, ?_⟩
  show jsonpStatus room (normDate a.aki_date) a.aki_num = _
  rw [jsonpStatus_spec]
  rfl

/-- Witness for analyze_jsonp_status_derivation at a concrete payload. -/
theorem analyze_jsonp_status_derivation_witness :
    cfgJsonp.target_dates.contains recTwin.date = true ∧
    ∃ room ∈ dataTwin.rooms, ∃ a ∈ room.aki,
      recTwin.date = normDate a.aki_date ∧
      recTwin.available_count = a.aki_num ∧
      recTwin.status = (if 0 < recTwin.available_count then "available"
                  else if priceFound room recTwin.date = true then "sold_out"
                  else "not_bookable") :=
  analyze_jsonp_status_derivation dataTwin cfgJsonp recTwin (by decide)

/-- An icon matching no marker is skipped by the classification loop. -/
lemma classifyIcons_skip (i : List String) (rest : List (List String))
    (hi : iconMatchesSomeMarker i = false) :
    classifyIcons (i :: rest) = classifyIcons rest := by
  simp only [iconMatchesSomeMarker, Bool.or_eq_false_iff] at hi
  obtain ⟨⟨⟨h1, h2⟩, h3⟩, h4⟩ := hi
  simp only [classifyIcons]
  rw [h1, h2, h3, h4]
  simp

/-- An icon whose classes contain the circle marker decides the day as
available with count 1. -/
lemma classifyIcons_circle (c : List String) (rest : List (List String))
    (hc : strContainsSub (joinSpace c) "fa-regular fa-circle" = true) :
    classifyIcons (c :: rest) = ("available", 1) := by
  simp only [classifyIcons]
  rw [hc]
  simp

/-- C6 counterexample: a day cell whose minus icon precedes its circle icon
is classified not_released (the loop breaks at the first matching icon),
and the day is excluded from the analysis output instead of being reported
available. -/
theorem html_minus_before_circle_cex :
    classifyIcons cellMinusFirst.icons = ("not_released", 0) ∧
    analyze_html_calendar_data [monthMinusFirst] cfgHtml = [] := by
  exact ⟨by decide, by decide⟩

/-- C6 (amended): per icon the checks are ordered circle and triangle
before X before minus, but the loop stops at the first icon matching any
marker; hence a cell whose marker-bearing icons start with a circle icon is
classified available with count 1 and reported, while the minus icon wins
when it comes first. -/
theorem classify_first_match_available
    (name : String) (classes : List String) (dstr : String)
    (pre rest : List (List String)) (c : List String)
    (hfind : classes.find? (fun s => strStarts s "2026-02-") = some dstr)
    (hpre : ∀ i ∈ pre, iconMatchesSomeMarker i = false)
    (hc : strContainsSub (joinSpace c) "fa-regular fa-circle" = true) :
    classifyIcons (pre ++ c :: rest) = ("available", 1) ∧
    analyzeCell name { dateElem := some classes, icons := pre ++ c :: rest } =
      some { room_name := name ++ " - Room", date := dstr, available_count := 1,
             price := "Check website", status := "available" } := by
  have hclass : classifyIcons (pre ++ c :: rest) = ("available", 1) := by
    induction pre with
    | nil => exact classifyIcons_circle c rest hc
    | cons i pre ih =>
      rw [List.cons_append,
        classifyIcons_skip i (pre ++ c :: rest) (hpre i (List.mem_cons_self i pre))]
      exact ih (fun j hj => hpre j (List.mem_cons_of_mem i hj))
  refine ⟨hclass, ?_⟩
  simp [analyzeCell, hfind, hclass]

/-- Witness for classify_first_match_available: circle before minus. -/
theorem classify_first_match_available_witness :
    classifyIcons [["fa-regular", "fa-circle"], ["fa-solid", "fa-minus", "text-danger"]] =
      ("available", 1) ∧
    analyzeCell "Ginzanso"
        { dateElem := some ["2026-02-14"],
          icons := [["fa-regular", "fa-circle"], ["fa-solid", "fa-minus", "text-danger"]] } =
      some { room_name := "Ginzanso - Room", date := "2026-02-14", available_count := 1,
             price := "Check website", status := "available" } :=
  classify_first_match_available "Ginzanso" ["2026-02-14"] "2026-02-14" []
    [["fa-solid", "fa-minus", "text-danger"]] ["fa-regular", "fa-circle"]
    (by decide) (by intro i hi; exact absurd hi (List.not_mem_nil i)) (by decide)

/-- A backend whose fetch raised contributes nothing: call_api catches the
error, and the loop continues with the remaining backends. -/
lemma gather_cons_err {α : Type} (e : String)
    (an : α → Except String (List RoomAvailability)) (rest : List (BackendRun α)) :
    gatherAvailability ({ fetched := Except.error e, analyze := an } :: rest) =
      gatherAvailability rest := rfl

/-- A backend whose fetch succeeded runs its analysis stage unwrapped. -/
lemma gather_cons_ok {α : Type} (d : α)
    (an : α → Except String (List RoomAvailability)) (rest : List (BackendRun α)) :
    gatherAvailability ({ fetched := Except.ok d, analyze := an } :: rest) =
      (match an d with
       | Except.error e => Except.error e
       | Except.ok recs =>
         match gatherAvailability rest with
         | Except.error e => Except.error e
         | Except.ok more => Except.ok (recs ++ more)) := rfl

/-- Removing a fetch-failed backend does not change the gathered records. -/
lemma gather_skip_error {α : Type} (pre post : List (BackendRun α)) (e : String)
    (an : α → Except String (List RoomAvailability)) :
    gatherAvailability (pre ++ { fetched := Except.error e, analyze := an } :: post) =
      gatherAvailability (pre ++ post) := by
  induction pre with
  | nil => rw [List.nil_append, List.nil_append, gather_cons_err]
  | cons b pre ih =>
    obtain ⟨bf, ban⟩ := b
    cases bf with
    | error e2 =>
      rw [List.cons_append, List.cons_append, gather_cons_err, gather_cons_err, ih]
    | ok d =>
      rw [List.cons_append, List.cons_append, gather_cons_ok, gather_cons_ok, ih]

/-- When every fetched backend's analysis succeeds, gathering succeeds. -/
lemma gather_ok_of_analyses_ok {α : Type} (backends : List (BackendRun α))
    (h : ∀ b ∈ backends, ∀ d : α, b.fetched = Except.ok d →
      ∃ recs, b.analyze d = Except.ok recs) :
    ∃ recs, gatherAvailability backends = Except.ok recs := by
  induction backends with
  | nil => exact ⟨[], rfl⟩
  | cons b rest ih =>
    rcases ih (fun b2 hb2 => h b2 (List.mem_cons_of_mem b hb2)) with ⟨more, hmore⟩
    obtain ⟨bf, ban⟩ := b
    cases bf with
    | error e => exact ⟨more, by rw [gather_cons_err]; exact hmore⟩
    | ok d =>
      rcases h _ (List.mem_cons_self _ rest) d rfl with ⟨recs, hrecs⟩
      refine ⟨recs ++ more, ?_⟩
      rw [gather_cons_ok]
      have hban : ban d = Except.ok recs := hrecs
      rw [hban, hmore]

/-- run_single_check unfolded. -/
lemma run_single_check_def {α : Type} (backends : List (BackendRun α))
    (prev : List AvailTuple) :
    run_single_check backends prev =
      (match gatherAvailability backends with
       | Except.error e => Except.error e
       | Except.ok allAvailability =>
         Except.ok { changes := detect_changes allAvailability prev,
                     notified := (detect_changes allAvailability prev).has_changes,
                     saved_state :=
                       (detect_changes allAvailability prev).current_available }) := rfl

/-- C3 counterexample: with two backends whose fetches both succeed, an
error raised in the first backend's analysis stage aborts the whole cycle:
run_single_check returns the error, the second backend's record is dropped,
and no diff, notification or state save takes place. -/
theorem run_single_check_analysis_error_aborts :
    run_single_check cexBackends [] = Except.error "boom" := rfl

/-- C3 (amended): errors raised during a backend's fetch and decode are
caught in call_api and become an empty contribution, so a fetch failure
never blocks the remaining backends nor the cycle; but an error raised in
the analysis stage propagates out of run_single_check, so only cycles whose
fetched backends all analyze cleanly complete with diff and state save. -/
theorem run_single_check_fetch_fail_soft (α : Type) :
    (∀ (pre post : List (BackendRun α)) (e : String)
        (an : α → Except String (List RoomAvailability)) (prev : List AvailTuple),
      run_single_check (pre ++ { fetched := Except.error e, analyze := an } :: post) prev =
        run_single_check (pre ++ post) prev) ∧
    (∀ (backends : List (BackendRun α)) (prev : List AvailTuple),
      (∀ b ∈ backends, ∀ d : α, b.fetched = Except.ok d →
        ∃ recs, b.analyze d = Except.ok recs) →
      ∃ c : CycleResult, run_single_check backends prev = Except.ok c) := by
  constructor
  · intro pre post e an prev
    rw [run_single_check_def, run_single_check_def, gather_skip_error]
  · intro backends prev h
    rcases gather_ok_of_analyses_ok backends h with ⟨recs, hrecs⟩
    refine ⟨{ changes := detect_changes recs prev,
              notified := (detect_changes recs prev).has_changes,
              saved_state := (detect_changes recs prev).current_available }, ?_⟩
    rw [run_single_check_def, hrecs]

/-- Witness for run_single_check_fetch_fail_soft: one timed-out backend and
one healthy backend still complete the cycle. -/
theorem run_single_check_fetch_fail_soft_witness :
    ∃ c : CycleResult, run_single_check goodBackends [] = Except.ok c :=
  (run_single_check_fetch_fail_soft Unit).2 goodBackends []
    (by
      intro b hb d hd
      simp only [goodBackends, List.mem_cons, List.mem_singleton] at hb
      rcases hb with rfl | rfl | h
      · exact Except.noConfusion hd
      · exact ⟨[recGinzanso], rfl⟩
      · exact absurd h (List.not_mem_nil b))

/-- The navigation loop never performs more steps than its budget. -/
lemma navLoop_steps_le {Page : Type} (env : NavEnv Page) (fuel : Nat)
    (s : Option Page) (url : String) :
    (navLoop env fuel s url).2.2 ≤ fuel := by
  induction fuel generalizing s url with
  | zero => simp [navLoop]
  | succ fuel ih =>
    cases hp : fetchPage env s url with
    | none => simp [navLoop, hp]
    | some soup =>
      by_cases ht : env.isTarget soup
      · simp [navLoop, hp, ht]
      · cases hn : env.next soup with
        | none => simp [navLoop, hp, ht, hn]
        | some url2 =>
          simp only [navLoop, hp, ht, hn, Bool.false_eq_true, if_false]
          have := ih none url2
          omega

/-- When no page ever shows the target month, the loop returns no page. -/
lemma navLoop_none_of_no_target {Page : Type} (env : NavEnv Page)
    (h : ∀ p, env.isTarget p = false) (fuel : Nat) (s : Option Page) (url : String) :
    (navLoop env fuel s url).1 = none := by
  induction fuel generalizing s url with
  | zero => rfl
  | succ fuel ih =>
    cases hp : fetchPage env s url with
    | none => simp [navLoop, hp]
    | some soup =>
      cases hn : env.next soup with
      | none => simp [navLoop, hp, h soup, hn]
      | some url2 => simp [navLoop, hp, h soup, hn, ih]

/-- When the first page is off-target and carries no next-period control,
the loop exhausts immediately with zero steps. -/
lemma navLoop_exhaust_immediate {Page : Type} (env : NavEnv Page) (p : Page)
    (url : String) (fuel : Nat) (hfetch : env.fetch url = some p)
    (ht : env.isTarget p = false) (hn : env.next p = none) :
    navLoop env (fuel + 1) none url = (none, url, 0) := by
  simp [navLoop, fetchPage, hfetch, ht, hn]

/-- C8: navigate_to_target_month performs at most 15 navigation steps; when
no page ever matches the target it returns no page (the exhausted outcome
with the last URL), and it does so immediately, after zero steps, as soon
as the current page carries no next-period control. -/
theorem navigate_to_target_month_bounded {Page : Type} (env : NavEnv Page)
    (init : Option Page) (url : String) :
    (navigate_to_target_month env init url).2.2 ≤ 15 ∧
    ((∀ p, env.isTarget p = false) → (navigate_to_target_month env init url).1 = none) ∧
    (∀ p : Page, env.fetch url = some p → env.isTarget p = false → env.next p = none →
      navigate_to_target_month env none url = (none, url, 0)) := by
  refine ⟨navLoop_steps_le env 15 init url,
    fun h => navLoop_none_of_no_target env h 15 init url, ?_⟩
  intro p hf ht hn
  exact navLoop_exhaust_immediate env p url 14 hf ht hn

/-- Witness for navigate_to_target_month_bounded: an environment where the
target never appears and a next control always exists. -/
theorem navigate_to_target_month_bounded_witness :
    (navigate_to_target_month envLoop none "start").2.2 ≤ 15 ∧
    (navigate_to_target_month envLoop none "start").1 = none :=
  ⟨(navigate_to_target_month_bounded envLoop none "start").1,
   (navigate_to_target_month_bounded envLoop none "start").2.1 (fun _ => rfl)⟩

/-- C9: notify_all always produces one result per channel, five in total;
each channel's result slot depends only on that channel's own outcome, so
failures on other channels never prevent it from being attempted; and a
channel whose configuration is absent yields the silent no-op result. -/
theorem notify_all_isolation (cfg : NotificationConfig) (o : ChannelOutcomes) :
    (notify_all cfg o).length = 5 ∧
    (∀ o2 : ChannelOutcomes,
      (o2.email = o.email → (notify_all cfg o2)[0]? = (notify_all cfg o)[0]?) ∧
      (o2.discord = o.discord → (notify_all cfg o2)[1]? = (notify_all cfg o)[1]?) ∧
      (o2.slack = o.slack → (notify_all cfg o2)[2]? = (notify_all cfg o)[2]?) ∧
      (o2.pushover = o.pushover → (notify_all cfg o2)[3]? = (notify_all cfg o)[3]?) ∧
      (o2.telegram = o.telegram → (notify_all cfg o2)[4]? = (notify_all cfg o)[4]?)) ∧
    ((cfg.email.enabled = false →
        (notify_all cfg o)[0]? = some ChannelResult.skipped) ∧
     (cfg.discord.enabled = false →
        (notify_all cfg o)[1]? = some ChannelResult.skipped) ∧
     (cfg.slack.enabled = false →
        (notify_all cfg o)[2]? = some ChannelResult.skipped) ∧
     (cfg.pushover.enabled = false →
        (notify_all cfg o)[3]? = some ChannelResult.skipped) ∧
     (cfg.telegram.enabled = false →
        (notify_all cfg o)[4]? = some ChannelResult.skipped)) := by
  refine ⟨rfl, ?_, ?_⟩
  · intro o2
    refine ⟨fun h => ?_, fun h => ?_, fun h => ?_, fun h => ?_, fun h => ?_⟩ <;>
      simp [notify_all, h]
  · refine ⟨fun h => ?_, fun h => ?_, fun h => ?_, fun h => ?_, fun h => ?_⟩ <;>
      simp [notify_all, send_email_notification, send_discord_notification,
        send_slack_notification, send_pushover_notification,
        send_telegram_notification, runChannel, h]

/-- Witness for notify_all_isolation: with email disabled and discord
failing, discord's slot is unaffected by changed email and slack outcomes
and email's slot is the silent no-op. -/
theorem notify_all_isolation_witness :
    (notify_all cfgNotif outcomesA).length = 5 ∧
    (notify_all cfgNotif outcomesB)[1]? = (notify_all cfgNotif outcomesA)[1]? ∧
    (notify_all cfgNotif outcomesA)[0]? = some ChannelResult.skipped :=
  ⟨(notify_all_isolation cfgNotif outcomesA).1,
   ((notify_all_isolation cfgNotif outcomesA).2.1 outcomesB).2.1 rfl,
   (notify_all_isolation cfgNotif outcomesA).2.2.1 rfl⟩
